import Mathlib

/-!
Verification of the cart-to-order core of the `ecommerce-backend` repository.

The JavaScript source is shallowly embedded: mongoose documents become Lean
structures, instance methods become Lean functions on those structures, the
`pre('save')` middleware is applied wherever the source calls `.save()`, and
thrown `ApiError`s become `Except` values.  JS numbers carrying money are
embedded as `ℚ` (the concrete amounts in play are exact in binary-free
rational arithmetic); identifiers (`ObjectId`s) are embedded as `Nat`.
Quantities are embedded as `Nat`.
-/

/-- Error taxonomy of the core: each constructor corresponds to a thrown
`ApiError` family in the controllers/models. -/
inductive Err
  | emptyCart
  | validationFailed
  | notFound
  | lockBusy
  | insufficientStock
  | invalidTransition
  | invalidCoupon
  | minAmountNotMet (minAmount : ℚ)
deriving DecidableEq, Repr

/-- Order statuses (the `status` enum of `orderSchema` in `src/models/Order.js`). -/
inductive OrderStatus
  | pending
  | confirmed
  | processing
  | shipped
  | outForDelivery
  | delivered
  | cancelled
  | refunded
deriving DecidableEq, Repr

/-- Payment statuses (the `payment.status` enum of `orderSchema`). -/
inductive PayStatus
  | pending
  | processing
  | succeeded
  | failed
  | cancelled
  | refunded
deriving DecidableEq, Repr

/-- One cart line (`cartItemSchema` in `src/models/Cart.js`):
product reference, optional variant reference, quantity, unit price. -/
structure CartItem where
  product : Nat
  variant : Option Nat
  quantity : Nat
  price : ℚ
deriving DecidableEq, Repr

/-- The cart document (`cartSchema`): line items plus the two derived totals.
`user` and timestamps play no role in the verified claims and are omitted. -/
structure Cart where
  items : List CartItem
  totalItems : Nat
  totalAmount : ℚ
deriving DecidableEq, Repr

/-- Sum of line quantities (the spec-side Σ quantity). -/
def sumQuantities (items : List CartItem) : Nat :=
  (items.map (fun it => it.quantity)).sum

/-- Sum of line amounts (the spec-side Σ quantity × unitPrice). -/
def sumAmounts (items : List CartItem) : ℚ :=
  (items.map (fun it => it.price * (it.quantity : ℚ))).sum

/-- The cart `pre('save')` middleware: recomputes `totalItems` and
`totalAmount` from the items by the two `reduce` calls in `Cart.js`. -/
def cartPreSave (c : Cart) : Cart :=
  { c with
    totalItems := c.items.foldl (fun s it => s + it.quantity) 0
    totalAmount := c.items.foldl (fun s it => s + it.price * (it.quantity : ℚ)) 0 }

/-- The line-matching predicate used by `addItem` / `updateItem` / `removeItem`
in `Cart.js`:
`item.product.toString() === productId.toString() &&
 (!variantId || item.variant?.toString() === variantId.toString())`.
Note that when no `variantId` is supplied the second conjunct is `true`
regardless of the line's own variant. -/
def itemMatches (productId : Nat) (variantId : Option Nat) (it : CartItem) : Bool :=
  it.product == productId &&
    (match variantId with
     | none => true
     | some v =>
       match it.variant with
       | none => false
       | some w => w == v)

/-- The body of `addItem` on the items array: `findIndex` the first matching
line; if found, increment its quantity and overwrite its price; else push a
new line. -/
def addLine (productId : Nat) (quantity : Nat) (price : ℚ) (variantId : Option Nat) :
    List CartItem → List CartItem
  | [] => [⟨productId, variantId, quantity, price⟩]
  | it :: rest =>
    if itemMatches productId variantId it then
      { it with quantity := it.quantity + quantity, price := price } :: rest
    else
      it :: addLine productId quantity price variantId rest

/-- Method `cartSchema.methods.addItem`: mutate the items array then `save()`
(which runs the totals-recomputing middleware). -/
def Cart.addItem (c : Cart) (productId : Nat) (quantity : Nat) (price : ℚ)
    (variantId : Option Nat := none) : Cart :=
  cartPreSave { c with items := addLine productId quantity price variantId c.items }

/-- The body of `updateItem` on the items array, at the found index:
`quantity <= 0` (here: `= 0`, quantities being `Nat`) splices the line out,
otherwise the quantity is set exactly. -/
def updateLine (quantity : Nat) :
    (productId : Nat) → (variantId : Option Nat) → List CartItem → List CartItem
  | _, _, [] => []
  | productId, variantId, it :: rest =>
    if itemMatches productId variantId it then
      if quantity = 0 then rest
      else { it with quantity := quantity } :: rest
    else
      it :: updateLine quantity productId variantId rest

/-- Method `cartSchema.methods.updateItem`: throws `Item not found in cart` when no
line matches, else splices / sets the first matching line and saves. -/
def Cart.updateItem (c : Cart) (productId : Nat) (quantity : Nat)
    (variantId : Option Nat := none) : Except Err Cart :=
  if c.items.any (itemMatches productId variantId) then
    .ok (cartPreSave { c with items := updateLine quantity productId variantId c.items })
  else
    .error .notFound

/-- Method `cartSchema.methods.removeItem`: filters out every matching line and saves. -/
def Cart.removeItem (c : Cart) (productId : Nat)
    (variantId : Option Nat := none) : Cart :=
  cartPreSave { c with items := c.items.filter (fun it => !(itemMatches productId variantId it)) }

/-- Method `cartSchema.methods.clearCart`: empties the items array and saves. -/
def Cart.clearCart (c : Cart) : Cart :=
  cartPreSave { c with items := [] }

/-- The totals invariant claimed by the spec for every cart after mutation. -/
def cartTotalsOk (c : Cart) : Prop :=
  c.totalItems = sumQuantities c.items ∧ c.totalAmount = sumAmounts c.items

theorem foldl_add_quantity (items : List CartItem) (a : Nat) :
    items.foldl (fun s it => s + it.quantity) a = a + sumQuantities items := by
  induction items generalizing a with
  | nil => simp [sumQuantities]
  | cons it rest ih =>
    simp only [List.foldl]
    rw [ih]
    simp only [sumQuantities, List.map_cons, List.sum_cons]
    omega

theorem foldl_add_amount (items : List CartItem) (a : ℚ) :
    items.foldl (fun s it => s + it.price * (it.quantity : ℚ)) a = a + sumAmounts items := by
  induction items generalizing a with
  | nil => simp [sumAmounts]
  | cons it rest ih =>
    simp only [List.foldl]
    rw [ih]
    simp only [sumAmounts, List.map_cons, List.sum_cons]
    ring

theorem cartPreSave_totalsOk (c : Cart) : cartTotalsOk (cartPreSave c) := by
  constructor
  · show c.items.foldl (fun s it => s + it.quantity) 0 = sumQuantities c.items
    rw [foldl_add_quantity]; omega
  · show c.items.foldl (fun s it => s + it.price * (it.quantity : ℚ)) 0 = sumAmounts c.items
    rw [foldl_add_amount]; ring

theorem cartPreSave_items (c : Cart) : (cartPreSave c).items = c.items := rfl

/-- C4: for every cart, after each of the four mutating operations
(`addItem`, `updateItem`, `removeItem`, `clearCart`) completes,
`totalItems` equals the sum of line quantities and `totalAmount` equals the
sum of quantity × unit price over all lines. -/
theorem cart_totals_invariant (c : Cart) (pid qty : Nat) (price : ℚ) (vid : Option Nat) :
    cartTotalsOk (c.addItem pid qty price vid) ∧
    (∀ c', c.updateItem pid qty vid = .ok c' → cartTotalsOk c') ∧
    cartTotalsOk (c.removeItem pid vid) ∧
    cartTotalsOk c.clearCart := by
  refine ⟨cartPreSave_totalsOk _, ?_, cartPreSave_totalsOk _, cartPreSave_totalsOk _⟩
  intro c' h
  unfold Cart.updateItem at h
  by_cases hm : c.items.any (itemMatches pid vid)
  · simp only [hm, if_pos] at h
    cases h
    exact cartPreSave_totalsOk _
  · simp only [hm, Bool.false_eq_true, if_false, reduceCtorEq] at h

theorem cart_totals_invariant_witness :
    cartTotalsOk ((Cart.mk [CartItem.mk 1 none 2 0] 2 0).addItem 2 1 0 none) ∧
    cartTotalsOk (Cart.mk [CartItem.mk 1 none 3 0] 3 0) ∧
    cartTotalsOk ((Cart.mk [CartItem.mk 1 none 2 0] 2 0).removeItem 1 none) ∧
    cartTotalsOk (Cart.mk [CartItem.mk 1 none 2 0] 2 0).clearCart :=
  ⟨(cart_totals_invariant (Cart.mk [CartItem.mk 1 none 2 0] 2 0) 2 1 0 none).1,
   (cart_totals_invariant (Cart.mk [CartItem.mk 1 none 2 0] 2 0) 1 3 0 none).2.1
     (Cart.mk [CartItem.mk 1 none 3 0] 3 0)
     (by simp [Cart.updateItem, updateLine, itemMatches, cartPreSave]),
   (cart_totals_invariant (Cart.mk [CartItem.mk 1 none 2 0] 2 0) 1 3 0 none).2.2.1,
   (cart_totals_invariant (Cart.mk [CartItem.mk 1 none 2 0] 2 0) 1 3 0 none).2.2.2⟩

/-- C7 counterexample: for the cart holding the single line
`(product 1, variant 2, qty 1, price 5)`, no line with the uniqueness key
`(product 1, no variant)` exists, so the claim requires
`addItem(1, 3, 7)` (no variant supplied) to append a new line — but the code
merges into the variant-carrying line instead, because the `!variantId`
disjunct of the matching test skips the variant comparison. -/
theorem addItem_key_claim_counterexample :
    (Cart.mk [CartItem.mk 1 (some 2) 1 5] 1 5).items = [CartItem.mk 1 (some 2) 1 5] ∧
    (CartItem.mk 1 (some 2) 1 5).variant ≠ (none : Option Nat) ∧
    ((Cart.mk [CartItem.mk 1 (some 2) 1 5] 1 5).addItem 1 3 7 none).items ≠
      (Cart.mk [CartItem.mk 1 (some 2) 1 5] 1 5).items ++ [CartItem.mk 1 none 3 7] := by
  decide

theorem addLine_all_unmatched (pid qty : Nat) (price : ℚ) (vid : Option Nat) :
    ∀ items : List CartItem, items.all (fun it => !(itemMatches pid vid it)) = true →
      addLine pid qty price vid items = items ++ [CartItem.mk pid vid qty price] := by
  intro items h
  induction items with
  | nil => rfl
  | cons it rest ih =>
    simp only [List.all_cons, Bool.and_eq_true, Bool.not_eq_true'] at h
    simp only [addLine, h.1, Bool.false_eq_true, if_false, List.cons_append, List.cons.injEq,
      true_and]
    exact ih (by simpa using h.2)

theorem addLine_found (pid qty : Nat) (price : ℚ) (vid : Option Nat) :
    ∀ (front : List CartItem) (it : CartItem) (back : List CartItem),
      front.all (fun j => !(itemMatches pid vid j)) = true →
      itemMatches pid vid it = true →
      addLine pid qty price vid (front ++ it :: back) =
        front ++ CartItem.mk it.product it.variant (it.quantity + qty) price :: back := by
  intro front it back hf hm
  induction front with
  | nil => simp [addLine, hm]
  | cons j rest ih =>
    simp only [List.all_cons, Bool.and_eq_true, Bool.not_eq_true'] at hf
    simp only [List.cons_append, addLine, hf.1, Bool.false_eq_true, if_false,
      List.cons.injEq, true_and]
    exact ih (by simpa using hf.2)

/-- C7 (amended): for every cart state and `addItem(productRef, qty, price,
variantRef?)`, a line "matches" when its product equals `productRef` and
either no `variantRef` was supplied or the line's variant equals the supplied
one.  If no line matches, a new line is appended; otherwise the **first**
matching line has its quantity incremented by `qty` and its price overwritten
with the supplied price, and no other line is changed. -/
theorem addItem_first_match_semantics (c : Cart) (pid qty : Nat) (price : ℚ)
    (vid : Option Nat) :
    (c.items.all (fun it => !(itemMatches pid vid it)) = true →
      (c.addItem pid qty price vid).items = c.items ++ [CartItem.mk pid vid qty price]) ∧
    (∀ front it back, c.items = front ++ it :: back →
      front.all (fun j => !(itemMatches pid vid j)) = true →
      itemMatches pid vid it = true →
      (c.addItem pid qty price vid).items =
        front ++ CartItem.mk it.product it.variant (it.quantity + qty) price :: back) := by
  constructor
  · intro h
    show addLine pid qty price vid c.items = _
    exact addLine_all_unmatched pid qty price vid c.items h
  · intro front it back hsplit hf hm
    show addLine pid qty price vid c.items = _
    rw [hsplit]
    exact addLine_found pid qty price vid front it back hf hm

theorem addItem_first_match_semantics_witness :
    ((Cart.mk [CartItem.mk 1 (some 2) 1 5] 1 5).addItem 3 4 9 none).items =
      [CartItem.mk 1 (some 2) 1 5] ++ [CartItem.mk 3 none 4 9] ∧
    ((Cart.mk [CartItem.mk 1 (some 2) 1 5] 1 5).addItem 1 4 9 (some 2)).items =
      [] ++ CartItem.mk 1 (some 2) (1 + 4) 9 :: [] :=
  ⟨(addItem_first_match_semantics (Cart.mk [CartItem.mk 1 (some 2) 1 5] 1 5)
      3 4 9 none).1 (by decide),
   (addItem_first_match_semantics (Cart.mk [CartItem.mk 1 (some 2) 1 5] 1 5)
      1 4 9 (some 2)).2 [] (CartItem.mk 1 (some 2) 1 5) [] rfl (by decide) (by decide)⟩

/-- The InventoryStore: per-product available stock (`product.stock`),
keyed by product reference. -/
def Inventory : Type := Nat → Nat

/-- Write one product's stock value (persisting `product.save()`). -/
def setStock (inv : Inventory) (p n : Nat) : Inventory :=
  fun q => if q = p then n else inv q

/-- Method `productSchema.methods.reserveStock` in `src/models/Product.js`:
`if (this.stock < quantity) throw new Error('Insufficient stock');
this.stock -= quantity; return this.save();`. -/
def Product.reserveStock (inv : Inventory) (p qty : Nat) : Except Err Inventory :=
  if inv p < qty then .error .insufficientStock
  else .ok (setStock inv p (inv p - qty))

/-- Method `productSchema.methods.releaseStock`: `this.stock += quantity; save()`. -/
def Product.releaseStock (inv : Inventory) (p qty : Nat) : Inventory :=
  setStock inv p (inv p + qty)

/-- One order line (`orderItemSchema` in `src/models/Order.js`); the variant,
line total and product snapshot play no role in the verified claims. -/
structure OrderItem where
  product : Nat
  quantity : Nat
  price : ℚ
deriving DecidableEq, Repr

/-- The stock-reservation loop of `createOrder`
(`for (const item of cart.items) await item.product.reserveStock(item.quantity)`):
each successful reservation is persisted at once; a throw stops the loop with
the earlier decrements still persisted, and the error propagates out of
`createOrder` with no compensating action. -/
def reserveItems : Inventory → List OrderItem → Inventory × Option Err
  | inv, [] => (inv, none)
  | inv, it :: rest =>
    match Product.reserveStock inv it.product it.quantity with
    | .ok inv2 => reserveItems inv2 rest
    | .error e => (inv, some e)

/-- Total quantity the given order lines hold of product `p`. -/
def reservedQty (items : List OrderItem) (p : Nat) : Nat :=
  (items.map (fun it => if it.product = p then it.quantity else 0)).sum

/-- C1 counterexample: inventory `product 1 ↦ 5, product 2 ↦ 0` and a
two-line order `[(product 1, qty 2), (product 2, qty 1)]`.  The second
reservation fails with `InsufficientStock`, but product 1's stock is left at
3, not restored to its pre-call level 5: `createOrder` has no rollback loop. -/
theorem createOrder_rollback_counterexample :
    (reserveItems (fun p => if p = 1 then 5 else 0)
        [OrderItem.mk 1 2 0, OrderItem.mk 2 1 0]).2 = some .insufficientStock ∧
    (reserveItems (fun p => if p = 1 then 5 else 0)
        [OrderItem.mk 1 2 0, OrderItem.mk 2 1 0]).1 1 = 3 ∧
    (3 : Nat) ≠ 5 ∧
    (fun p => if p = 1 then 5 else (0 : Nat)) 1 = 5 := by
  refine ⟨rfl, rfl, by decide, rfl⟩

/-- C1 (amended): if reserving stock for a cart line fails, the whole
order creation fails with `InsufficientStock`, but reservations already
applied for earlier lines of the same order are **not** rolled back: the
inventory is left exactly in the state reached after the earlier lines'
decrements (no compensating release happens before the error surfaces). -/
theorem reserveItems_no_rollback (inv : Inventory) :
    ∀ (front : List OrderItem) (it : OrderItem) (back : List OrderItem),
      (reserveItems inv front).2 = none →
      (reserveItems inv front).1 it.product < it.quantity →
      reserveItems inv (front ++ it :: back) =
        ((reserveItems inv front).1, some .insufficientStock) := by
  intro front
  induction front generalizing inv with
  | nil =>
    intro it back _ hlt
    simp only [reserveItems] at hlt ⊢
    simp only [List.nil_append, reserveItems, Product.reserveStock, hlt, if_pos]
  | cons f rest ih =>
    intro it back hok hlt
    simp only [reserveItems, Product.reserveStock] at hok hlt ⊢
    by_cases hf : inv f.product < f.quantity
    · simp only [hf, if_pos] at hok
      exact Option.noConfusion hok
    · simp only [hf, Bool.false_eq_true, if_neg, if_false] at hok hlt ⊢
      exact ih _ it back hok hlt

theorem reserveItems_no_rollback_witness :
    reserveItems (fun p => if p = 1 then 5 else 0)
        ([OrderItem.mk 1 2 0] ++ OrderItem.mk 2 1 0 :: []) =
      ((reserveItems (fun p => if p = 1 then 5 else 0) [OrderItem.mk 1 2 0]).1,
        some .insufficientStock) :=
  reserveItems_no_rollback (fun p => if p = 1 then 5 else 0)
    [OrderItem.mk 1 2 0] (OrderItem.mk 2 1 0) [] rfl (by decide)

/-- One `statusHistory` entry of `orderSchema`: status, free-text note and
the acting user (`updatedBy`); the timestamp is not modelled. -/
structure HistoryEntry where
  status : OrderStatus
  note : String
  updatedBy : Option Nat
deriving DecidableEq, Repr

/-- The order document (`orderSchema`), restricted to the fields the verified
claims touch: order number, status, status history, payment status, line
items, and the two note fields. -/
structure Order where
  orderNumber : String
  status : OrderStatus
  statusHistory : List HistoryEntry
  paymentStatus : PayStatus
  items : List OrderItem
  notes : Option String
  internalNotes : Option String
deriving DecidableEq, Repr

/-- Method `orderSchema.methods.addStatusHistory`: pushes `{status, note, updatedBy,
timestamp}` onto `statusHistory` and sets `status` — with **no** check that
the transition is allowed. -/
def Order.addStatusHistory (o : Order) (status : OrderStatus) (note : String := "")
    (updatedBy : Option Nat := none) : Order :=
  { o with
    statusHistory := o.statusHistory ++ [⟨status, note, updatedBy⟩]
    status := status }

/-- Method `orderSchema.methods.canBeCancelled`:
`['pending', 'confirmed', 'processing'].includes(this.status)`. -/
def Order.canBeCancelled (o : Order) : Bool :=
  [OrderStatus.pending, OrderStatus.confirmed, OrderStatus.processing].contains o.status

/-- The `updateOrderStatus` controller (admin), on the order it found: calls
`addStatusHistory(status, note, userId)` and saves.  The optional tracking
fields and the delivered-date stamp do not interact with status/history and
are not modelled. -/
def updateOrderStatus (o : Order) (status : OrderStatus) (note : String)
    (actor : Option Nat) : Order :=
  o.addStatusHistory status note actor

/-- The transition relation asserted by the spec (§4.4).  This definition is
written from the spec's words only, in order to state claim C2 against the
code: `pending→confirmed→processing→shipped→out_for_delivery→delivered`,
`pending|confirmed|processing→cancelled`, `delivered→refunded`. -/
def specAllowedTransition : OrderStatus → OrderStatus → Bool
  | .pending, .confirmed => true
  | .confirmed, .processing => true
  | .processing, .shipped => true
  | .shipped, .outForDelivery => true
  | .outForDelivery, .delivered => true
  | .pending, .cancelled => true
  | .confirmed, .cancelled => true
  | .processing, .cancelled => true
  | .delivered, .refunded => true
  | _, _ => false

/-- C2 counterexample: a delivered order receives the (spec-forbidden)
request `delivered → pending` through `updateOrderStatus`; far from being
rejected with `InvalidTransition`, the code sets the status to `pending` and
appends a history entry. -/
theorem updateOrderStatus_counterexample :
    specAllowedTransition .delivered .pending = false ∧
    (updateOrderStatus
        (Order.mk "ORD-1" .delivered [] .succeeded [] none none)
        .pending "back to pending" (some 7)).status = .pending ∧
    (updateOrderStatus
        (Order.mk "ORD-1" .delivered [] .succeeded [] none none)
        .pending "back to pending" (some 7)).statusHistory =
      [HistoryEntry.mk .pending "back to pending" (some 7)] := by
  refine ⟨rfl, rfl, rfl⟩

/-- C2 (amended): `updateOrderStatus` performs **no** transition validation:
for every order and every requested status it succeeds, sets the order's
status to the requested value and appends exactly one `statusHistory` entry,
leaving items and payment status unchanged — in particular
`delivered → pending` is applied, not rejected. -/
theorem updateOrderStatus_no_validation (o : Order) (s : OrderStatus) (note : String)
    (actor : Option Nat) :
    (updateOrderStatus o s note actor).status = s ∧
    (updateOrderStatus o s note actor).statusHistory =
      o.statusHistory ++ [HistoryEntry.mk s note actor] ∧
    (updateOrderStatus o s note actor).items = o.items ∧
    (updateOrderStatus o s note actor).paymentStatus = o.paymentStatus := by
  exact ⟨rfl, rfl, rfl, rfl⟩

/-- The stock-release loop of `cancelOrder`
(`for (const item of order.items) await item.product.releaseStock(item.quantity)`). -/
def releaseItems (inv : Inventory) (items : List OrderItem) : Inventory :=
  items.foldl (fun i it => Product.releaseStock i it.product it.quantity) inv

theorem releaseItems_apply (items : List OrderItem) (inv : Inventory) (p : Nat) :
    releaseItems inv items p = inv p + reservedQty items p := by
  induction items generalizing inv with
  | nil => simp [releaseItems, reservedQty]
  | cons it rest ih =>
    simp only [releaseItems, List.foldl] at ih ⊢
    rw [ih]
    simp only [reservedQty, List.map_cons, List.sum_cons, Product.releaseStock, setStock]
    by_cases hp : it.product = p
    · subst hp
      simp
      omega
    · rw [if_neg (fun h => hp h.symm), if_neg hp]
      omega

/-- The `cancelOrder` controller, on the order it found and owned by the
caller: rejects when `canBeCancelled()` is false
(`Order cannot be cancelled at this stage`); otherwise releases each line's
reserved stock, appends a `cancelled` history entry and saves. -/
def cancelOrder (o : Order) (inv : Inventory) (reason : String) (actor : Option Nat) :
    Except Err (Order × Inventory) :=
  if o.canBeCancelled then
    .ok (o.addStatusHistory .cancelled reason actor, releaseItems inv o.items)
  else
    .error .invalidTransition

/-- C5: `cancelOrder` succeeds exactly when the order's status is `pending`,
`confirmed` or `processing`; on success it transitions the order to
`cancelled` and adds every line's reserved quantity back to that product's
stock; on an already-cancelled order it fails with `InvalidTransition` and the
inventory is not touched a second time (no `ok` result exists at all). -/
theorem cancelOrder_semantics (o : Order) (inv : Inventory) (reason : String)
    (actor : Option Nat) :
    ((∃ r, cancelOrder o inv reason actor = .ok r) ↔
      (o.status = .pending ∨ o.status = .confirmed ∨ o.status = .processing)) ∧
    (o.status = .cancelled → cancelOrder o inv reason actor = .error .invalidTransition) ∧
    (∀ o2 inv2, cancelOrder o inv reason actor = .ok (o2, inv2) →
      o2.status = .cancelled ∧ ∀ p, inv2 p = inv p + reservedQty o.items p) := by
  have hc : o.canBeCancelled = true ↔
      (o.status = .pending ∨ o.status = .confirmed ∨ o.status = .processing) := by
    unfold Order.canBeCancelled
    cases o.status <;> simp
  refine ⟨?_, ?_, ?_⟩
  · constructor
    · rintro ⟨r, hr⟩
      unfold cancelOrder at hr
      by_cases h : o.canBeCancelled
      · exact hc.mp h
      · simp only [h, Bool.false_eq_true, if_false, reduceCtorEq] at hr
    · intro h
      refine ⟨(o.addStatusHistory .cancelled reason actor, releaseItems inv o.items), ?_⟩
      unfold cancelOrder
      rw [if_pos (hc.mpr h)]
  · intro h
    unfold cancelOrder
    rw [if_neg]
    rw [hc]
    simp [h]
  · intro o2 inv2 h
    unfold cancelOrder at h
    by_cases hb : o.canBeCancelled
    · simp only [hb, if_pos, Except.ok.injEq, Prod.mk.injEq] at h
      refine ⟨?_, ?_⟩
      · rw [← h.1]
        rfl
      · intro p
        rw [← h.2]
        exact releaseItems_apply o.items inv p
    · simp only [hb, Bool.false_eq_true, if_false, reduceCtorEq] at h

theorem cancelOrder_semantics_witness :
    (cancelOrder (Order.mk "ORD-2" .cancelled [] .pending [] none none)
        (fun _ => 4) "dup" none = .error .invalidTransition) ∧
    ((Order.mk "ORD-3" .pending [] .pending [OrderItem.mk 1 2 0] none none).status = .pending ∨
      (Order.mk "ORD-3" .pending [] .pending [OrderItem.mk 1 2 0] none none).status = .confirmed ∨
      (Order.mk "ORD-3" .pending [] .pending [OrderItem.mk 1 2 0] none none).status = .processing) ∧
    ((Order.mk "ORD-3" .pending [] .pending [OrderItem.mk 1 2 0] none none)
        |>.addStatusHistory .cancelled "user request" (some 9)).status = .cancelled ∧
    releaseItems (fun _ => 4) [OrderItem.mk 1 2 0] 1 =
      (fun _ => (4 : Nat)) 1 + reservedQty [OrderItem.mk 1 2 0] 1 :=
  ⟨(cancelOrder_semantics (Order.mk "ORD-2" .cancelled [] .pending [] none none)
      (fun _ => 4) "dup" none).2.1 rfl,
   (cancelOrder_semantics (Order.mk "ORD-3" .pending [] .pending [OrderItem.mk 1 2 0] none none)
      (fun _ => 4) "user request" (some 9)).1.mp
     ⟨((Order.mk "ORD-3" .pending [] .pending [OrderItem.mk 1 2 0] none none).addStatusHistory
         .cancelled "user request" (some 9),
       releaseItems (fun _ => 4) [OrderItem.mk 1 2 0]), rfl⟩,
   ((cancelOrder_semantics (Order.mk "ORD-3" .pending [] .pending [OrderItem.mk 1 2 0] none none)
      (fun _ => 4) "user request" (some 9)).2.2
     ((Order.mk "ORD-3" .pending [] .pending [OrderItem.mk 1 2 0] none none).addStatusHistory
         .cancelled "user request" (some 9))
     (releaseItems (fun _ => 4) [OrderItem.mk 1 2 0]) rfl).1,
   ((cancelOrder_semantics (Order.mk "ORD-3" .pending [] .pending [OrderItem.mk 1 2 0] none none)
      (fun _ => 4) "user request" (some 9)).2.2
     ((Order.mk "ORD-3" .pending [] .pending [OrderItem.mk 1 2 0] none none).addStatusHistory
         .cancelled "user request" (some 9))
     (releaseItems (fun _ => 4) [OrderItem.mk 1 2 0]) rfl).2 1⟩

/-- Handler `PaymentService.handlePaymentFailure` in `src/services/payment.service.js`,
on the order found by payment-intent id: sets `payment.status = 'failed'`,
calls `addStatusHistory('cancelled', 'Payment failed')` and saves.  The
handler contains **no** inventory operation, so the inventory is returned
untouched. -/
def handlePaymentFailure (o : Order) (inv : Inventory) : Order × Inventory :=
  ({ o with paymentStatus := PayStatus.failed }.addStatusHistory
      .cancelled "Payment failed" none,
   inv)

/-- C3 counterexample: an order that reserved 2 units of product 1 at
creation (stock then 3) goes through the payment-failed webhook.  The claim
requires the reserved stock to be released (stock back to 5); the code leaves
the stock at 3 while still marking the payment failed and the order
cancelled. -/
theorem handlePaymentFailure_counterexample :
    (handlePaymentFailure
        (Order.mk "ORD-4" .pending [] .processing [OrderItem.mk 1 2 0] none none)
        (fun p => if p = 1 then 3 else 0)).2 1 = 3 ∧
    (3 : Nat) ≠ 3 + 2 ∧
    (handlePaymentFailure
        (Order.mk "ORD-4" .pending [] .processing [OrderItem.mk 1 2 0] none none)
        (fun p => if p = 1 then 3 else 0)).1.paymentStatus = .failed ∧
    (handlePaymentFailure
        (Order.mk "ORD-4" .pending [] .processing [OrderItem.mk 1 2 0] none none)
        (fun p => if p = 1 then 3 else 0)).1.status = .cancelled := by
  refine ⟨rfl, by decide, rfl, rfl⟩

/-- C3 (amended): the payment-failed webhook handler sets `payment.status`
to `failed`, transitions the order to `cancelled` (appending exactly one
history entry), but does **not** release the stock reserved at order
creation: the inventory component is returned unchanged for every product. -/
theorem handlePaymentFailure_semantics (o : Order) (inv : Inventory) :
    (handlePaymentFailure o inv).1.paymentStatus = .failed ∧
    (handlePaymentFailure o inv).1.status = .cancelled ∧
    (handlePaymentFailure o inv).1.statusHistory =
      o.statusHistory ++ [HistoryEntry.mk .cancelled "Payment failed" none] ∧
    (handlePaymentFailure o inv).2 = inv :=
  ⟨rfl, rfl, rfl, rfl⟩

/-- Coupon kinds used by both mock tables. -/
inductive CouponType
  | percentage
  | fixed
deriving DecidableEq, Repr

/-- The `mockCoupons` table **inside `createOrder`**
(`order.controller.js`): `SAVE10 = {percentage, 10}`,
`FLAT20 = {fixed, 20}` — note: no `minAmount` field at all.  The JS code
looks the table up at `couponCode.toUpperCase()`; codes are modelled as the
already-uppercased strings. -/
def orderMockCoupons (code : String) : Option (CouponType × ℚ) :=
  if code = "SAVE10" then some (CouponType.percentage, 10)
  else if code = "FLAT20" then some (CouponType.fixed, 20)
  else none

/-- The discount computation inside `createOrder`: starts at 0; an absent or
unknown code leaves it at 0 (non-fatal); a known percentage code gives
`subtotal × value / 100`, a known fixed code gives `value`. -/
def orderDiscount (couponCode : Option String) (subtotal : ℚ) : ℚ :=
  match couponCode with
  | none => 0
  | some code =>
    match orderMockCoupons code with
    | none => 0
    | some (CouponType.percentage, v) => subtotal * v / 100
    | some (CouponType.fixed, v) => v

/-- The `mockCoupons` table of the **cart `applyCoupon` endpoint** (the cart
controller): `SAVE10 = {percentage, 10, minAmount 50}`,
`FLAT20 = {fixed, 20, minAmount 100}`. -/
def cartMockCoupons (code : String) : Option (CouponType × ℚ × ℚ) :=
  if code = "SAVE10" then some (CouponType.percentage, 10, 50)
  else if code = "FLAT20" then some (CouponType.fixed, 20, 100)
  else none

/-- The cart controller's `applyCoupon` endpoint: unknown code →
`Invalid coupon code`; `totalAmount < minAmount` → the minimum-amount error;
else the discount is computed and returned. -/
def applyCoupon (code : String) (totalAmount : ℚ) : Except Err ℚ :=
  match cartMockCoupons code with
  | none => .error .invalidCoupon
  | some (kind, v, minAmount) =>
    if totalAmount < minAmount then .error (.minAmountNotMet minAmount)
    else
      .ok (match kind with
        | CouponType.percentage => totalAmount * v / 100
        | CouponType.fixed => v)

/-- C6 counterexample: in `createOrder`, coupon `SAVE10` applied to subtotal
20 yields discount 2 (10%), **not** 0 — `createOrder`'s own coupon table has
no minimum-amount rule, so no evaluator error occurs and a non-zero discount
is applied.  (The minimum-amount error of the claim lives only in the cart
`applyCoupon` endpoint, which throws instead of proceeding.) -/
theorem createOrder_coupon_counterexample :
    orderDiscount (some "SAVE10") 20 = 2 ∧ (2 : ℚ) ≠ 0 ∧
    applyCoupon "SAVE10" 20 = .error (.minAmountNotMet 50) := by
  refine ⟨?_, by norm_num, ?_⟩
  · show (20 : ℚ) * 10 / 100 = 2
    norm_num
  · norm_num [applyCoupon, cartMockCoupons]

/-- C6 (amended): in `createOrder` an absent or unknown coupon code is
non-fatal and leaves the discount at 0, but `createOrder` applies **its own**
coupon table with no minimum-amount rule: `SAVE10` always discounts
`subtotal × 10 / 100` (2 for subtotal 20).  The minimum-amount check of the
claim exists only in the cart `applyCoupon` endpoint, which rejects the
request with an error naming the minimum instead of creating anything with
discount 0. -/
theorem createOrder_coupon_semantics (subtotal : ℚ) (code : String) :
    orderDiscount none subtotal = 0 ∧
    (orderMockCoupons code = none → orderDiscount (some code) subtotal = 0) ∧
    orderDiscount (some "SAVE10") subtotal = subtotal * 10 / 100 ∧
    (subtotal < 50 → applyCoupon "SAVE10" subtotal = .error (.minAmountNotMet 50)) := by
  refine ⟨rfl, ?_, rfl, ?_⟩
  · intro h
    simp [orderDiscount, h]
  · intro h
    simp [applyCoupon, cartMockCoupons, h]

theorem createOrder_coupon_semantics_witness :
    orderDiscount (some "BOGUS") 20 = 0 ∧
    applyCoupon "SAVE10" 20 = .error (.minAmountNotMet 50) :=
  ⟨(createOrder_coupon_semantics 20 "BOGUS").2.1 (by decide),
   (createOrder_coupon_semantics 20 "BOGUS").2.2.2 (by decide)⟩

/-- A calendar date as the order-number hook reads it
(`getFullYear`, `getMonth()+1`, `getDate()`). -/
structure DateYMD where
  year : Nat
  month : Nat
  day : Nat
deriving DecidableEq, Repr

/-- JS `String(n).padStart(2, '0')` for month/day. -/
def pad2 (n : Nat) : String :=
  if n < 10 then "0" ++ toString n else toString n

/-- JS `s.padStart(4, '0')`: left-pad with zeros up to length 4; longer strings
are returned unchanged. -/
def padStart4 (s : String) : String :=
  if 4 ≤ s.length then s
  else String.mk (List.replicate (4 - s.length) '0') ++ s

/-- The order number generated by the `pre('save')` hook of `Order.js`:
`ORD-${year}${month}${day}-${String(count + 1).padStart(4, '0')}` where
`count` is the number of orders already created on the same calendar day. -/
def genOrderNumber (d : DateYMD) (countToday : Nat) : String :=
  "ORD-" ++ toString d.year ++ pad2 d.month ++ pad2 d.day ++ "-" ++
    padStart4 (toString (countToday + 1))

/-- The `orderSchema.pre('save')` hook: on the **first** save of a document
(`this.isNew`) it assigns `orderNumber` from the per-day sequence,
overwriting any value the caller set; on later saves it leaves the order
untouched. -/
def orderPreSave (o : Order) (isNew : Bool) (d : DateYMD) (countToday : Nat) : Order :=
  if isNew then { o with orderNumber := genOrderNumber d countToday } else o

/-- The ad-hoc order number `createOrder` writes before calling `save()`
(``ORD-${year}${Date.now().toString().slice(-6)}``); the save hook replaces
it. -/
def controllerOrderNumber (year now6 : Nat) : String :=
  "ORD-" ++ toString year ++ toString now6

/-- C8: the order number is assigned at creation (the first save): whatever
value `createOrder` wrote beforehand, the hook overwrites it with
`ORD-<YYYYMMDD>-<counter padded to 4 digits>` where the counter is the count
of orders already created that day plus 1; the pad really yields 4 digits
whenever the unpadded counter has at most 4; and a later save (`isNew`
false) never reassigns it — so the persisted number is assigned exactly
once. -/
theorem orderNumber_assigned_once (o : Order) (year now6 : Nat) (d d2 : DateYMD)
    (countToday c2 : Nat) :
    (orderPreSave { o with orderNumber := controllerOrderNumber year now6 }
        true d countToday).orderNumber =
      "ORD-" ++ toString d.year ++ pad2 d.month ++ pad2 d.day ++ "-" ++
        padStart4 (toString (countToday + 1)) ∧
    (∀ s : String, s.length ≤ 4 → (padStart4 s).length = 4) ∧
    orderPreSave (orderPreSave o true d countToday) false d2 c2 =
      orderPreSave o true d countToday := by
  refine ⟨rfl, ?_, rfl⟩
  intro s hs
  unfold padStart4
  by_cases h4 : 4 ≤ s.length
  · rw [if_pos h4]
    omega
  · rw [if_neg h4]
    rw [String.length_append]
    have hmk : (String.mk (List.replicate (4 - s.length) '0')).length =
        4 - s.length := by
      show (List.replicate (4 - s.length) '0').length = 4 - s.length
      exact List.length_replicate _ _
    omega

theorem orderNumber_assigned_once_witness :
    (padStart4 (toString (2 + 1))).length = 4 :=
  (orderNumber_assigned_once
      (Order.mk "x" .pending [] .pending [] none none) 2025 123456
      (DateYMD.mk 2025 10 11) (DateYMD.mk 2025 10 12) 2 3).2.1
    (toString (2 + 1)) (by decide)

/-- A JSON value, as produced when a mongoose document is serialized. -/
inductive JVal where
  | jstr (s : String)
  | jnum (q : ℚ)
  | jnull
  | jarr (elems : List JVal)
  | jobj (fields : List (String × JVal))

/-- The wire name of an order status. -/
def statusName : OrderStatus → String
  | .pending => "pending"
  | .confirmed => "confirmed"
  | .processing => "processing"
  | .shipped => "shipped"
  | .outForDelivery => "out_for_delivery"
  | .delivered => "delivered"
  | .cancelled => "cancelled"
  | .refunded => "refunded"

/-- The wire name of a payment status. -/
def payStatusName : PayStatus → String
  | .pending => "pending"
  | .processing => "processing"
  | .succeeded => "succeeded"
  | .failed => "failed"
  | .cancelled => "cancelled"
  | .refunded => "refunded"

/-- Serialize an optional string field (`undefined` → JSON null here). -/
def optStr : Option String → JVal
  | none => JVal.jnull
  | some s => JVal.jstr s

/-- Serialize one order line. -/
def orderItemJson (it : OrderItem) : JVal :=
  JVal.jobj [("product", JVal.jnum (it.product : ℚ)),
             ("quantity", JVal.jnum (it.quantity : ℚ)),
             ("price", JVal.jnum it.price)]

/-- Serialize one status-history entry. -/
def historyEntryJson (e : HistoryEntry) : JVal :=
  JVal.jobj [("status", JVal.jstr (statusName e.status)),
             ("note", JVal.jstr e.note)]

/-- Mongoose `this.toObject()`: every modelled schema field of the order as a JSON
key/value pair — **including** `internalNotes`. -/
def Order.toObject (o : Order) : List (String × JVal) :=
  [("orderNumber", JVal.jstr o.orderNumber),
   ("status", JVal.jstr (statusName o.status)),
   ("statusHistory", JVal.jarr (o.statusHistory.map historyEntryJson)),
   ("payment", JVal.jobj [("status", JVal.jstr (payStatusName o.paymentStatus))]),
   ("items", JVal.jarr (o.items.map orderItemJson)),
   ("notes", optStr o.notes),
   ("internalNotes", optStr o.internalNotes)]

/-- Method `orderSchema.methods.toJSON`: `toObject()` followed by
`delete orderObject.internalNotes`. -/
def Order.toJSON (o : Order) : List (String × JVal) :=
  (Order.toObject o).filter (fun kv => !(kv.1 == "internalNotes"))

/-- C10: for every order, the JSON serialization handed to callers never
contains the `internalNotes` field, whatever the order's state. -/
theorem toJSON_strips_internalNotes (o : Order) :
    ∀ kv ∈ Order.toJSON o, kv.1 ≠ "internalNotes" := by
  intro kv hkv
  have hp := List.of_mem_filter hkv
  simpa using hp

theorem toJSON_strips_internalNotes_witness :
    ("orderNumber", JVal.jstr "ORD-9").1 ≠ "internalNotes" :=
  toJSON_strips_internalNotes
    (Order.mk "ORD-9" .pending [] .pending [] none (some "secret"))
    ("orderNumber", JVal.jstr "ORD-9")
    (by simp [Order.toJSON, Order.toObject, List.filter])

/-- The phase of one `addToCart` request around its Redis-locked critical
section (`cart.controller` `addToCart`). -/
inductive ReqPhase
  | start
  | inCS
  | mutated
  | finished
  | busy
deriving DecidableEq, Repr

/-- Shared state of two concurrent `addToCart` requests on the same
`(user, product)` pair: the Redis key `cart_lock:userId:productId` (holding
the owner's `lockValue` when set), each request's phase, and whether each
request has performed its cart mutation.  Request 1 uses token 1 and
request 2 token 2 (the distinct `Date.now().toString()` lock values). -/
structure LockSys where
  lock : Option Nat
  phase1 : ReqPhase
  phase2 : ReqPhase
  mut1 : Bool
  mut2 : Bool
deriving DecidableEq, Repr

/-- One atomic step of a request with the given token:
`start` runs the atomic `SET key value PX 5000 NX` — on a free key it stores
the token and enters the critical section, on a held key it fails and the
request answers 409 (`Cart is being updated, please try again`) without
touching the cart; `inCS` performs the cart mutation; `mutated` runs the
`finally` block (get the key, delete only if it still equals the own token);
`finished` and `busy` take no further steps. -/
def stepReq (token : Nat) (lock : Option Nat) (phase : ReqPhase) (m : Bool) :
    Option Nat × ReqPhase × Bool :=
  match phase with
  | .start =>
    match lock with
    | none => (some token, .inCS, m)
    | some t => (some t, .busy, m)
  | .inCS => (lock, .mutated, true)
  | .mutated =>
    (match lock with
     | some t => if t = token then none else some t
     | none => none, .finished, m)
  | .finished => (lock, .finished, m)
  | .busy => (lock, .busy, m)

/-- Interleaving: `true` lets request 1 take its next atomic step, `false`
request 2. -/
def lockStep (s : LockSys) (c : Bool) : LockSys :=
  if c then
    let r := stepReq 1 s.lock s.phase1 s.mut1
    { s with lock := r.1, phase1 := r.2.1, mut1 := r.2.2 }
  else
    let r := stepReq 2 s.lock s.phase2 s.mut2
    { s with lock := r.1, phase2 := r.2.1, mut2 := r.2.2 }

/-- Run a schedule of interleaved steps. -/
def lockRun (s : LockSys) : List Bool → LockSys
  | [] => s
  | c :: cs => lockRun (lockStep s c) cs

/-- Both requests start outside the critical section with the key free. -/
def lockInit : LockSys := ⟨none, .start, .start, false, false⟩

/-- A request in this phase has observed a successful lock acquisition and
has not yet released. -/
def holding (p : ReqPhase) : Bool := p == .inCS || p == .mutated

/-- Inductive invariant of the two-request system: a request holding the
lock sees its own token stored, and a request at `start` or `busy` has not
mutated the cart. -/
def lockInv (s : LockSys) : Prop :=
  (holding s.phase1 = true → s.lock = some 1) ∧
  (holding s.phase2 = true → s.lock = some 2) ∧
  (s.phase1 = .start → s.mut1 = false) ∧
  (s.phase2 = .start → s.mut2 = false) ∧
  (s.phase1 = .busy → s.mut1 = false) ∧
  (s.phase2 = .busy → s.mut2 = false)

theorem lockInv_step (s : LockSys) (c : Bool) (h : lockInv s) : lockInv (lockStep s c) := by
  obtain ⟨h1, h2, h3, h4, h5, h6⟩ := h
  cases c
  · cases hp : s.phase2 with
    | start =>
      cases hl : s.lock with
      | none =>
        refine ⟨?_, ?_, ?_, ?_, ?_, ?_⟩ <;>
          simp only [lockStep, stepReq, hp, hl, if_false, Bool.false_eq_true, holding] <;>
          intro hh
        · exact absurd (h1 (by simpa [holding] using hh)) (by simp [hl])
        · trivial
        · exact h3 (by simpa using hh)
        · simp at hh
        · exact h5 (by simpa using hh)
        · simp at hh
      | some t =>
        refine ⟨?_, ?_, ?_, ?_, ?_, ?_⟩ <;>
          simp only [lockStep, stepReq, hp, hl, if_false, Bool.false_eq_true, holding] <;>
          intro hh
        · exact hl.symm.trans (h1 (by simpa [holding] using hh))
        · simp at hh
        · exact h3 (by simpa using hh)
        · simp at hh
        · exact h5 (by simpa using hh)
        · exact h4 hp
    | inCS =>
      refine ⟨?_, ?_, ?_, ?_, ?_, ?_⟩ <;>
        simp only [lockStep, stepReq, hp, if_false, Bool.false_eq_true, holding] <;>
        intro hh
      · exact h1 (by simpa [holding] using hh)
      · exact h2 (by simp [holding, hp])
      · exact h3 (by simpa using hh)
      · simp at hh
      · exact h5 (by simpa using hh)
      · simp at hh
    | mutated =>
      have hl2 : s.lock = some 2 := h2 (by simp [holding, hp])
      refine ⟨?_, ?_, ?_, ?_, ?_, ?_⟩ <;>
        simp only [lockStep, stepReq, hp, hl2, if_false, Bool.false_eq_true, holding] <;>
        intro hh
      · exact absurd (h1 (by simpa [holding] using hh)) (by simp [hl2])
      · simp at hh
      · exact h3 (by simpa using hh)
      · simp at hh
      · exact h5 (by simpa using hh)
      · simp at hh
    | finished =>
      refine ⟨?_, ?_, ?_, ?_, ?_, ?_⟩ <;>
        simp only [lockStep, stepReq, hp, if_false, Bool.false_eq_true, holding] <;>
        intro hh
      · exact h1 (by simpa [holding] using hh)
      · simp at hh
      · exact h3 (by simpa using hh)
      · simp at hh
      · exact h5 (by simpa using hh)
      · simp at hh
    | busy =>
      refine ⟨?_, ?_, ?_, ?_, ?_, ?_⟩ <;>
        simp only [lockStep, stepReq, hp, if_false, Bool.false_eq_true, holding] <;>
        intro hh
      · exact h1 (by simpa [holding] using hh)
      · simp at hh
      · exact h3 (by simpa using hh)
      · simp at hh
      · exact h5 (by simpa using hh)
      · exact h6 hp
  · cases hp : s.phase1 with
    | start =>
      cases hl : s.lock with
      | none =>
        refine ⟨?_, ?_, ?_, ?_, ?_, ?_⟩ <;>
          simp only [lockStep, stepReq, hp, hl, if_true, holding] <;>
          intro hh
        · trivial
        · exact absurd (h2 (by simpa [holding] using hh)) (by simp [hl])
        · simp at hh
        · exact h4 (by simpa using hh)
        · simp at hh
        · exact h6 (by simpa using hh)
      | some t =>
        refine ⟨?_, ?_, ?_, ?_, ?_, ?_⟩ <;>
          simp only [lockStep, stepReq, hp, hl, if_true, holding] <;>
          intro hh
        · simp at hh
        · exact hl.symm.trans (h2 (by simpa [holding] using hh))
        · simp at hh
        · exact h4 (by simpa using hh)
        · exact h3 hp
        · exact h6 (by simpa using hh)
    | inCS =>
      refine ⟨?_, ?_, ?_, ?_, ?_, ?_⟩ <;>
        simp only [lockStep, stepReq, hp, if_true, holding] <;>
        intro hh
      · exact h1 (by simp [holding, hp])
      · exact h2 (by simpa [holding] using hh)
      · simp at hh
      · exact h4 (by simpa using hh)
      · simp at hh
      · exact h6 (by simpa using hh)
    | mutated =>
      have hl1 : s.lock = some 1 := h1 (by simp [holding, hp])
      refine ⟨?_, ?_, ?_, ?_, ?_, ?_⟩ <;>
        simp only [lockStep, stepReq, hp, hl1, if_true, holding] <;>
        intro hh
      · simp at hh
      · exact absurd (h2 (by simpa [holding] using hh)) (by simp [hl1])
      · simp at hh
      · exact h4 (by simpa using hh)
      · simp at hh
      · exact h6 (by simpa using hh)
    | finished =>
      refine ⟨?_, ?_, ?_, ?_, ?_, ?_⟩ <;>
        simp only [lockStep, stepReq, hp, if_true, holding] <;>
        intro hh
      · simp at hh
      · exact h2 (by simpa [holding] using hh)
      · simp at hh
      · exact h4 (by simpa using hh)
      · simp at hh
      · exact h6 (by simpa using hh)
    | busy =>
      refine ⟨?_, ?_, ?_, ?_, ?_, ?_⟩ <;>
        simp only [lockStep, stepReq, hp, if_true, holding] <;>
        intro hh
      · simp at hh
      · exact h2 (by simpa [holding] using hh)
      · simp at hh
      · exact h4 (by simpa using hh)
      · exact h5 hp
      · exact h6 (by simpa using hh)

theorem lockInv_run (sched : List Bool) (s : LockSys) (h : lockInv s) :
    lockInv (lockRun s sched) := by
  induction sched generalizing s with
  | nil => exact h
  | cons c cs ih => exact ih _ (lockInv_step s c h)

/-- C9: for two concurrent `addToCart` requests on the same `(user, product)`
pair, under **every** interleaving of their atomic steps, at most one request
is inside the lock-protected critical section at any instant (they never both
observe a successful `SET NX` before the holder's release), and a request
that received the retryable 409 "cart busy" outcome has not mutated the
cart. -/
theorem addToCart_mutual_exclusion (sched : List Bool) :
    (holding (lockRun lockInit sched).phase1 &&
      holding (lockRun lockInit sched).phase2) = false ∧
    ((lockRun lockInit sched).phase1 = .busy → (lockRun lockInit sched).mut1 = false) ∧
    ((lockRun lockInit sched).phase2 = .busy → (lockRun lockInit sched).mut2 = false) := by
  have hinv : lockInv (lockRun lockInit sched) :=
    lockInv_run sched lockInit
      (by refine ⟨?_, ?_, ?_, ?_, ?_, ?_⟩ <;> intro h <;> first | rfl | exact absurd h (by decide))
  obtain ⟨h1, h2, h3, h4, h5, h6⟩ := hinv
  refine ⟨?_, h5, h6⟩
  cases hh1 : holding (lockRun lockInit sched).phase1 with
  | false => rfl
  | true =>
    cases hh2 : holding (lockRun lockInit sched).phase2 with
    | false => rfl
    | true =>
      have hc := (h1 hh1).symm.trans (h2 hh2)
      simp at hc

theorem addToCart_mutual_exclusion_witness :
    (holding (lockRun lockInit [true, false]).phase1 &&
      holding (lockRun lockInit [true, false]).phase2) = false ∧
    (lockRun lockInit [false, true]).mut1 = false ∧
    (lockRun lockInit [true, false]).mut2 = false :=
  ⟨(addToCart_mutual_exclusion [true, false]).1,
   (addToCart_mutual_exclusion [false, true]).2.1 (by decide),
   (addToCart_mutual_exclusion [true, false]).2.2 (by decide)⟩
